import Mathlib

/-!
Verification of the skcms ICC-profile parser core against its specification.

The development shallowly embeds the C sources: buffers are lists of bytes,
big-endian readers assemble naturals, signed 15.16 fixed-point values are
represented exactly as rationals (the float rounding of the source is
abstracted to exact arithmetic), and every fallible decoder returns an
Option.  Machine-width arithmetic that the source performs in uint64_t
(SAFE_SIZEOF promotes every sizeof to 64 bits) is modelled directly on Nat,
which cannot overflow; the few places where 32-bit wrap-around matters are
modelled with explicit bounds checks mirroring the source.
-/

/-! ## Byte reader (skcms.c, read_big_*) -/

/-- A borrowed byte buffer.  Entries are reduced mod 256 on every access, so
an arbitrary list behaves exactly like a uint8_t array. -/
abbrev Bytes := List Nat

/-- Read one byte; out-of-range reads yield 0 (the total model used for the
functional embedding; bounds questions are handled by separate instrumented
definitions). -/
def byteAt (b : Bytes) (i : Nat) : Nat := b.getD i 0 % 256

/-- read_big_u16: two bytes, big-endian. -/
def read_big_u16 (b : Bytes) (i : Nat) : Nat := byteAt b i * 256 + byteAt b (i + 1)

/-- read_big_u32: four bytes, big-endian. -/
def read_big_u32 (b : Bytes) (i : Nat) : Nat :=
  read_big_u16 b i * 65536 + read_big_u16 b (i + 2)

/-- read_big_u64: eight bytes, big-endian. -/
def read_big_u64 (b : Bytes) (i : Nat) : Nat :=
  read_big_u32 b i * 4294967296 + read_big_u32 b (i + 4)

/-- Reinterpret a uint32 as a two's-complement int32_t. -/
def toInt32 (n : Nat) : Int :=
  if n < 2147483648 then (n : Int) else (n : Int) - 4294967296

/-- read_big_i32. -/
def read_big_i32 (b : Bytes) (i : Nat) : Int := toInt32 (read_big_u32 b i)

/-- read_big_fixed: a signed 15.16 fixed-point value.  The source divides by
65536.0f in float; we model the value exactly as a rational. -/
def read_big_fixed (b : Bytes) (i : Nat) : ℚ := (read_big_i32 b i : ℚ) / 65536

/-- make_signature: pack four character bytes big-endian. -/
def make_signature (a b c d : Nat) : Nat := ((a * 256 + b) * 256 + c) * 256 + d

def sig_acsp : Nat := make_signature 0x61 0x63 0x73 0x70
def sig_kTRC : Nat := make_signature 0x6B 0x54 0x52 0x43
def sig_rTRC : Nat := make_signature 0x72 0x54 0x52 0x43
def sig_gTRC : Nat := make_signature 0x67 0x54 0x52 0x43
def sig_bTRC : Nat := make_signature 0x62 0x54 0x52 0x43
def sig_rXYZ : Nat := make_signature 0x72 0x58 0x59 0x5A
def sig_gXYZ : Nat := make_signature 0x67 0x58 0x59 0x5A
def sig_bXYZ : Nat := make_signature 0x62 0x58 0x59 0x5A
def sig_A2B1 : Nat := make_signature 0x41 0x32 0x42 0x31
def sig_A2B0 : Nat := make_signature 0x41 0x32 0x42 0x30
def sig_para : Nat := make_signature 0x70 0x61 0x72 0x61
def sig_curv : Nat := make_signature 0x63 0x75 0x72 0x76
def sig_XYZsp : Nat := make_signature 0x58 0x59 0x5A 0x20
def sig_mft1 : Nat := make_signature 0x6D 0x66 0x74 0x31
def sig_mft2 : Nat := make_signature 0x6D 0x66 0x74 0x32
def sig_mAB : Nat := make_signature 0x6D 0x41 0x42 0x20

/-! ## Data model (skcms.h records) -/

/-- skcms_TransferFunction: y = (a x + b)^g + e for x ≥ d, else y = c x + f.
Coefficients are floats in the source, exact rationals here. -/
structure TransferFunction where
  g : ℚ := 0
  a : ℚ := 0
  b : ℚ := 0
  c : ℚ := 0
  d : ℚ := 0
  e : ℚ := 0
  f : ℚ := 0
deriving Inhabited

/-- skcms_Curve: table_entries = 0 means parametric; otherwise a sampled
table, 8-bit if table_8 is set, else 16-bit big-endian in table_16.  The
source stores borrowed pointers; we store the borrowed byte slice. -/
structure Curve where
  table_entries : Nat := 0
  table_8 : Option Bytes := none
  table_16 : Option Bytes := none
  parametric : TransferFunction := {}
deriving Inhabited

/-- skcms_Matrix3x3 (the toXYZD50 matrix), row-major vals[r][c]. -/
structure Matrix3x3 where
  m00 : ℚ := 0
  m01 : ℚ := 0
  m02 : ℚ := 0
  m10 : ℚ := 0
  m11 : ℚ := 0
  m12 : ℚ := 0
  m20 : ℚ := 0
  m21 : ℚ := 0
  m22 : ℚ := 0
deriving Inhabited

/-- The 3x4 matrix of an mAB tag: 3x3 row-major plus a fourth (translation)
column, vals[r][c]. -/
structure Matrix3x4 where
  e00 : ℚ := 0
  e01 : ℚ := 0
  e02 : ℚ := 0
  e03 : ℚ := 0
  e10 : ℚ := 0
  e11 : ℚ := 0
  e12 : ℚ := 0
  e13 : ℚ := 0
  e20 : ℚ := 0
  e21 : ℚ := 0
  e22 : ℚ := 0
  e23 : ℚ := 0
deriving Inhabited

/-- skcms_ICCDateTime: six unsigned 16-bit components. -/
structure ICCDateTime where
  year : Nat := 0
  month : Nat := 0
  day : Nat := 0
  hour : Nat := 0
  minute : Nat := 0
  second : Nat := 0
deriving DecidableEq, Inhabited

/-- skcms_A2B.  Fixed-size C arrays are modelled as lists holding exactly the
populated prefix; grid data pointers are borrowed byte slices. -/
structure A2B where
  input_channels : Nat := 0
  input_curves : List Curve := []
  grid_points : List Nat := []
  grid_8 : Option Bytes := none
  grid_16 : Option Bytes := none
  matrix_channels : Nat := 0
  matrix_curves : List Curve := []
  matrix : Matrix3x4 := {}
  output_channels : Nat := 0
  output_curves : List Curve := []
deriving Inhabited

/-- skcms_ICCProfile.  The three TRC slots trc[0..2] are trc0/trc1/trc2.
All fields are zero-initialized (the memset in skcms_Parse) via the field
defaults. -/
structure Profile where
  size : Nat := 0
  cmm_type : Nat := 0
  version : Nat := 0
  profile_class : Nat := 0
  data_color_space : Nat := 0
  pcs : Nat := 0
  creation_date_time : ICCDateTime := {}
  signature : Nat := 0
  platform : Nat := 0
  flags : Nat := 0
  device_manufacturer : Nat := 0
  device_model : Nat := 0
  device_attributes : Nat := 0
  rendering_intent : Nat := 0
  illuminant_X : ℚ := 0
  illuminant_Y : ℚ := 0
  illuminant_Z : ℚ := 0
  creator : Nat := 0
  profile_id : Bytes := []
  tag_count : Nat := 0
  trc0 : Curve := {}
  trc1 : Curve := {}
  trc2 : Curve := {}
  has_trc : Bool := false
  toXYZD50 : Matrix3x3 := {}
  has_toXYZD50 : Bool := false
  A2B : A2B := {}
  has_A2B : Bool := false
deriving Inhabited

/-- skcms_ICCTag: the borrowed pointer buf is modelled by the offset of the
payload into the profile buffer. -/
structure ICCTag where
  signature : Nat := 0
  offset : Nat := 0
  size : Nat := 0
  type : Nat := 0
deriving DecidableEq, Inhabited

/-! ## Curve decoder (read_curve_para, read_curve_curv, read_curve) -/

/-- The per-variant extra byte counts of a para tag: { 4, 12, 16, 20, 28 }. -/
def curve_bytes_para (ft : Nat) : Nat :=
  match ft with
  | 0 => 4
  | 1 => 12
  | 2 => 16
  | 3 => 20
  | _ => 28

/-- read_curve_para.  sizeof(para_Layout) = 12; parameters start at offset 12.
The source checks curve->parametric.a == 0.0f after decoding; a 15.16 value
rounds to float 0 exactly when its raw int32 is 0, so the check is modelled
on the raw integer.  On success the second component is the consumed byte
count written to *curve_size. -/
def read_curve_para (buf : Bytes) (size : Nat) : Option (Curve × Nat) :=
  if size < 12 then none else
  let ft := read_big_u16 buf 8
  if 4 < ft then none else
  if size < 12 + curve_bytes_para ft then none else
  let used := 12 + curve_bytes_para ft
  let g := read_big_fixed buf 12
  match ft with
  | 0 => some ({ parametric := { g := g, a := 1, b := 0, c := 0, d := 0, e := 0, f := 0 } }, used)
  | 1 =>
    if read_big_i32 buf 16 = 0 then none else
    let a := read_big_fixed buf 16
    let b := read_big_fixed buf 20
    some ({ parametric := { g := g, a := a, b := b, c := 0, d := -b / a, e := 0, f := 0 } }, used)
  | 2 =>
    if read_big_i32 buf 16 = 0 then none else
    let a := read_big_fixed buf 16
    let b := read_big_fixed buf 20
    let e := read_big_fixed buf 24
    some ({ parametric := { g := g, a := a, b := b, c := 0, d := -b / a, e := e, f := e } }, used)
  | 3 =>
    some ({ parametric :=
      { g := g, a := read_big_fixed buf 16, b := read_big_fixed buf 20,
        c := read_big_fixed buf 24, d := read_big_fixed buf 28, e := 0, f := 0 } }, used)
  | _ =>
    some ({ parametric :=
      { g := g, a := read_big_fixed buf 16, b := read_big_fixed buf 20,
        c := read_big_fixed buf 24, d := read_big_fixed buf 28,
        e := read_big_fixed buf 32, f := read_big_fixed buf 36 } }, used)

/-- read_curve_curv.  sizeof(curv_Layout) = 12; the 16-bit sample values
start at offset 12.  value_count < 2 canonicalizes to a parametric curve
(identity for 0 entries, pure gamma v/256 for 1 entry); otherwise the curve
borrows the table bytes.  All size arithmetic is u64 in the source
(SAFE_SIZEOF), hence plain Nat here. -/
def read_curve_curv (buf : Bytes) (size : Nat) : Option (Curve × Nat) :=
  if size < 12 then none else
  let vc := read_big_u32 buf 8
  if size < 12 + vc * 2 then none else
  let used := 12 + vc * 2
  if vc < 2 then
    some ({ parametric :=
      { g := if vc = 0 then 1 else (read_big_u16 buf 12 : ℚ) / 256,
        a := 1, b := 0, c := 0, d := 0, e := 0, f := 0 } }, used)
  else
    some ({ table_entries := vc, table_8 := none,
            table_16 := some ((buf.drop 12).take (vc * 2)),
            parametric := { g := 0, a := 0, b := 0, c := 0, d := 0, e := 0, f := 0 } }, used)

/-- read_curve: dispatch on the 4-byte type signature.  The source also
rejects null buf/curve pointers, which have no counterpart in the model. -/
def read_curve (buf : Bytes) (size : Nat) : Option (Curve × Nat) :=
  if size < 4 then none else
  let ty := read_big_u32 buf 0
  if ty = sig_para then read_curve_para buf size
  else if ty = sig_curv then read_curve_curv buf size
  else none

/-! ## XYZ tags (read_tag_xyz, read_to_XYZD50) -/

/-- read_tag_xyz: requires type XYZ and size ≥ sizeof(XYZ_Layout) = 20; the
payload is read at buf+8/12/16.  Returns the decoded triple. -/
def read_tag_xyz (buf : Bytes) (t : ICCTag) : Option (ℚ × ℚ × ℚ) :=
  if t.type ≠ sig_XYZsp ∨ t.size < 20 then none else
  some (read_big_fixed (buf.drop t.offset) 8,
        read_big_fixed (buf.drop t.offset) 12,
        read_big_fixed (buf.drop t.offset) 16)

/-- read_to_XYZD50: populate the toXYZD50 matrix columnwise from the three
XYZ tags (r → column 0, g → column 1, b → column 2). -/
def read_to_XYZD50 (buf : Bytes) (rXYZ gXYZ bXYZ : ICCTag) : Option Matrix3x3 :=
  match read_tag_xyz buf rXYZ, read_tag_xyz buf gXYZ, read_tag_xyz buf bXYZ with
  | some (rx, ry, rz), some (gx, gy, gz), some (bx, by2, bz) =>
    some { m00 := rx, m10 := ry, m20 := rz,
           m01 := gx, m11 := gy, m21 := gz,
           m02 := bx, m12 := by2, m22 := bz }
  | _, _, _ => none

/-! ## A2B decoder (mft1 / mft2 / mAB) -/

/-- read_mft_common: the shared 48-byte prefix of mft1/mft2.
Offsets: input_channels at 8, output_channels at 9, grid_points at 10.
The embedded 3x3 matrix (offset 12) is ignored and matrix_channels is set
to 0.  Output channels must be 3, input channels in [1,4], and the single
grid_points byte (replicated on every input axis) at least 2. -/
def read_mft_common (buf : Bytes) : Option A2B :=
  let inCh := byteAt buf 8
  let outCh := byteAt buf 9
  if outCh ≠ 3 then none else
  if inCh < 1 ∨ 4 < inCh then none else
  let gp := byteAt buf 10
  if gp < 2 then none else
  some { matrix_channels := 0, input_channels := inCh, output_channels := outCh,
         grid_points := List.replicate inCh gp }

/-- init_a2b_tables: lay out all input tables, then the grid, then all output
tables, and check the total byte length against the remaining tag size.
table_base is the byte slice after the fixed layout; all arithmetic is u64
in the source, hence Nat. -/
def init_a2b_tables (table_base : Bytes) (max_tables_len : Nat) (byte_width : Nat)
    (input_table_entries output_table_entries : Nat) (a2b : A2B) : Option A2B :=
  let byte_len_per_input_table := input_table_entries * byte_width
  let byte_len_per_output_table := output_table_entries * byte_width
  let byte_len_all_input_tables := a2b.input_channels * byte_len_per_input_table
  let byte_len_all_output_tables := a2b.output_channels * byte_len_per_output_table
  let grid_size := a2b.output_channels * byte_width * a2b.grid_points.prod
  if max_tables_len < byte_len_all_input_tables + grid_size + byte_len_all_output_tables then
    none
  else
    let mkTable (base : Nat) (len : Nat) : Bytes := (table_base.drop base).take len
    let inCurve (i : Nat) : Curve :=
      if byte_width = 1 then
        { table_entries := input_table_entries,
          table_8 := some (mkTable (i * byte_len_per_input_table) byte_len_per_input_table),
          table_16 := none }
      else
        { table_entries := input_table_entries, table_8 := none,
          table_16 := some (mkTable (i * byte_len_per_input_table) byte_len_per_input_table) }
    let outCurve (i : Nat) : Curve :=
      if byte_width = 1 then
        { table_entries := output_table_entries,
          table_8 := some (mkTable (byte_len_all_input_tables + grid_size +
                             i * byte_len_per_output_table) byte_len_per_output_table),
          table_16 := none }
      else
        { table_entries := output_table_entries, table_8 := none,
          table_16 := some (mkTable (byte_len_all_input_tables + grid_size +
                              i * byte_len_per_output_table) byte_len_per_output_table) }
    some { a2b with
      input_curves := (List.range a2b.input_channels).map inCurve,
      grid_8 := if byte_width = 1 then some (table_base.drop byte_len_all_input_tables) else none,
      grid_16 := if byte_width = 1 then none else some (table_base.drop byte_len_all_input_tables),
      output_curves := (List.range a2b.output_channels).map outCurve }

/-- read_tag_mft1: sizeof(mft1_Layout) = 48; tables are 256 entries of one
byte each. -/
def read_tag_mft1 (buf : Bytes) (size : Nat) : Option A2B :=
  if size < 48 then none else
  match read_mft_common buf with
  | none => none
  | some a2b => init_a2b_tables (buf.drop 48) (size - 48) 1 256 256 a2b

/-- The mft2 range check on the 16-bit table-entry counts: the ICC spec
mandates 2 ≤ entries ≤ 4096.  True exactly when the source's range test
passes. -/
def mft2_entries_in_range (input_table_entries output_table_entries : Nat) : Bool :=
  !(decide (input_table_entries < 2) || decide (4096 < input_table_entries) ||
    decide (output_table_entries < 2) || decide (4096 < output_table_entries))

/-- read_tag_mft2: sizeof(mft2_Layout) = 52, with the 16-bit table entry
counts at offsets 48 and 50 and two-byte-wide tables. -/
def read_tag_mft2 (buf : Bytes) (size : Nat) : Option A2B :=
  if size < 52 then none else
  match read_mft_common buf with
  | none => none
  | some a2b =>
    let input_table_entries := read_big_u16 buf 48
    let output_table_entries := read_big_u16 buf 50
    if mft2_entries_in_range input_table_entries output_table_entries = false then none else
    init_a2b_tables (buf.drop 52) (size - 52) 2 input_table_entries output_table_entries a2b

/-- read_curves: decode num_curves curves starting at curve_offset, each
advanced to a 4-byte boundary.  The source keeps curve_offset in uint32_t
and rejects advancement that would overflow it; the rejects are modelled
with explicit bounds. -/
def read_curves (buf : Bytes) (size : Nat) : Nat → Nat → Option (List Curve)
  | _, 0 => some []
  | curve_offset, n + 1 =>
    if size < curve_offset then none else
    match read_curve (buf.drop curve_offset) (size - curve_offset) with
    | none => none
    | some (c, curve_bytes) =>
      if 4294967292 < curve_bytes then none else
      let aligned := (curve_bytes + 3) / 4 * 4
      if 4294967296 ≤ curve_offset + aligned then none else
      match read_curves buf size (curve_offset + aligned) n with
      | none => none
      | some cs => some (c :: cs)

/-- The M-curves / matrix section of read_tag_mab: m-curves and the matrix
must be used together.  Offsets within the tag: matrix at 16, m-curves
at 20.  Returns (matrix_channels, matrix_curves, matrix); the elided stage
is (0, [], 0-matrix). -/
def mab_m_stage (buf : Bytes) (size : Nat) (outCh : Nat) :
    Option (Nat × List Curve × Matrix3x4) :=
  let matrix_offset := read_big_u32 buf 16
  let m_curve_offset := read_big_u32 buf 20
  if m_curve_offset ≠ 0 then
    if matrix_offset = 0 then none else
    match read_curves buf size m_curve_offset outCh with
    | none => none
    | some mCurves =>
      if size < matrix_offset + 48 then none else
      some (outCh, mCurves,
        { e00 := read_big_fixed buf (matrix_offset + 0),
          e01 := read_big_fixed buf (matrix_offset + 4),
          e02 := read_big_fixed buf (matrix_offset + 8),
          e10 := read_big_fixed buf (matrix_offset + 12),
          e11 := read_big_fixed buf (matrix_offset + 16),
          e12 := read_big_fixed buf (matrix_offset + 20),
          e20 := read_big_fixed buf (matrix_offset + 24),
          e21 := read_big_fixed buf (matrix_offset + 28),
          e22 := read_big_fixed buf (matrix_offset + 32),
          e03 := read_big_fixed buf (matrix_offset + 36),
          e13 := read_big_fixed buf (matrix_offset + 40),
          e23 := read_big_fixed buf (matrix_offset + 44) })
  else
    if matrix_offset ≠ 0 then none else
    some (0, [], {})

/-- The A-curves / CLUT section of read_tag_mab: a-curves and the CLUT must
be used together.  Offsets within the tag: clut at 24, a-curves at 28.  The
CLUT sub-block (mABCLUT_Layout, 20 bytes) holds grid_points[16], the grid
byte width (1 or 2) and three reserved bytes before the grid data.  Returns
(input_channels, input_curves, grid_points, grid_8, grid_16); when the stage
is elided the input and output channel counts must match and the recorded
input_channels is 0. -/
def mab_a_stage (buf : Bytes) (size : Nat) (inCh outCh : Nat) :
    Option (Nat × List Curve × List Nat × Option Bytes × Option Bytes) :=
  let clut_offset := read_big_u32 buf 24
  let a_curve_offset := read_big_u32 buf 28
  if a_curve_offset ≠ 0 then
    if clut_offset = 0 then none else
    match read_curves buf size a_curve_offset inCh with
    | none => none
    | some aCurves =>
      if size < clut_offset + 20 then none else
      let gbw := byteAt buf (clut_offset + 16)
      if gbw ≠ 1 ∧ gbw ≠ 2 then none else
      let gps := (List.range inCh).map (fun i => byteAt buf (clut_offset + i))
      if (gps.all (fun gp => 2 ≤ gp)) = false then none else
      let grid_size := outCh * gbw * gps.prod
      if size < clut_offset + 20 + grid_size then none else
      some (inCh, aCurves, gps,
            if gbw = 1 then some (buf.drop (clut_offset + 20)) else none,
            if gbw = 1 then none else some (buf.drop (clut_offset + 20)))
  else
    if clut_offset ≠ 0 then none else
    if inCh ≠ outCh then none else
    some (0, [], [], none, none)

/-- read_tag_mab.  sizeof(mAB_Layout) = 32.  Offsets within the layout:
input_channels at 8, output_channels at 9, then the five sub-offsets
b_curve/matrix/m_curve/clut/a_curve at 12/16/20/24/28.  The b-curves are
mandatory; the M and A sections are the stage readers above. -/
def read_tag_mab (buf : Bytes) (size : Nat) : Option A2B :=
  if size < 32 then none else
  let inCh := byteAt buf 8
  let outCh := byteAt buf 9
  if outCh ≠ 3 then none else
  if 4 < inCh then none else
  let b_curve_offset := read_big_u32 buf 12
  if b_curve_offset = 0 then none else
  match read_curves buf size b_curve_offset outCh with
  | none => none
  | some bCurves =>
    match mab_m_stage buf size outCh with
    | none => none
    | some (matCh, mCurves, mtx) =>
      match mab_a_stage buf size inCh outCh with
      | none => none
      | some (inCh2, aCurves, gps, g8, g16) =>
        some { input_channels := inCh2, input_curves := aCurves, grid_points := gps,
               grid_8 := g8, grid_16 := g16,
               matrix_channels := matCh, matrix_curves := mCurves, matrix := mtx,
               output_channels := outCh, output_curves := bCurves }

/-- read_a2b: dispatch on the tag type. -/
def read_a2b (buf : Bytes) (t : ICCTag) : Option A2B :=
  if t.type = sig_mft1 then read_tag_mft1 (buf.drop t.offset) t.size
  else if t.type = sig_mft2 then read_tag_mft2 (buf.drop t.offset) t.size
  else if t.type = sig_mAB then read_tag_mab (buf.drop t.offset) t.size
  else none

/-! ## Tag directory (skcms_GetTagByIndex, skcms_GetTagBySignature) -/

/-- Signature field of directory entry i (the table starts at byte 132, each
entry is 12 bytes: signature, offset, size). -/
def tag_sig_at (buf : Bytes) (i : Nat) : Nat := read_big_u32 buf (132 + 12 * i)

/-- Offset field of directory entry i. -/
def tag_offset_at (buf : Bytes) (i : Nat) : Nat := read_big_u32 buf (132 + 12 * i + 4)

/-- Size field of directory entry i. -/
def tag_size_at (buf : Bytes) (i : Nat) : Nat := read_big_u32 buf (132 + 12 * i + 8)

/-- Build the tag handle for directory entry i: the payload pointer is
buffer + offset, and the type is the payload's first four bytes. -/
def tag_at (buf : Bytes) (i : Nat) : ICCTag :=
  { signature := tag_sig_at buf i, size := tag_size_at buf i, offset := tag_offset_at buf i,
    type := read_big_u32 buf (tag_offset_at buf i) }

/-- skcms_GetTagByIndex: the guard rejects only idx > tag_count (the source
returns without writing the out-parameter, modelled as none). -/
def skcms_GetTagByIndex (buf : Bytes) (tag_count idx : Nat) : Option ICCTag :=
  if tag_count < idx then none else some (tag_at buf idx)

/-- skcms_GetTagBySignature: linear scan over the directory, first match
wins. -/
def skcms_GetTagBySignature (buf : Bytes) (tag_count sig : Nat) : Option ICCTag :=
  ((List.range tag_count).find? (fun i => tag_sig_at buf i == sig)).map (tag_at buf)

/-! ## Top-level parse (skcms_Parse) -/

/-- The header decode: all fields of the 132-byte header (ICC.1:2010 section
7.2 layout), byte-swapped, plus the tag count at offset 128.  The has_*
materializations stay at their zero defaults. -/
def readHeader (buf : Bytes) : Profile :=
  { size := read_big_u32 buf 0,
    cmm_type := read_big_u32 buf 4,
    version := read_big_u32 buf 8,
    profile_class := read_big_u32 buf 12,
    data_color_space := read_big_u32 buf 16,
    pcs := read_big_u32 buf 20,
    creation_date_time :=
      { year := read_big_u16 buf 24, month := read_big_u16 buf 26, day := read_big_u16 buf 28,
        hour := read_big_u16 buf 30, minute := read_big_u16 buf 32, second := read_big_u16 buf 34 },
    signature := read_big_u32 buf 36,
    platform := read_big_u32 buf 40,
    flags := read_big_u32 buf 44,
    device_manufacturer := read_big_u32 buf 48,
    device_model := read_big_u32 buf 52,
    device_attributes := read_big_u64 buf 56,
    rendering_intent := read_big_u32 buf 64,
    illuminant_X := read_big_fixed buf 68,
    illuminant_Y := read_big_fixed buf 72,
    illuminant_Z := read_big_fixed buf 76,
    creator := read_big_u32 buf 80,
    profile_id := (buf.drop 84).take 16,
    tag_count := read_big_u32 buf 128 }

/-- The illuminant D50 test of skcms_Parse on one component, on the raw
15.16 integer i against the expected value c in units of 1/10000:
|i/65536 - c/10000| ≤ 1/100, cleared of denominators (multiply through by
65536 * 10000).  The source computes fabsf(float(i)/65536 - c) ≤ 0.01 in
float; the exact rational form is the idealization the spec states. -/
def illuminant_component_ok (i : Int) (c : Int) : Bool :=
  (10000 * i - 65536 * c).natAbs ≤ 6553600

/-- The full D50 illuminant validation against (0.9642, 1.0000, 0.8249). -/
def illuminant_ok (buf : Bytes) : Bool :=
  illuminant_component_ok (read_big_i32 buf 68) 9642 &&
  illuminant_component_ok (read_big_i32 buf 72) 10000 &&
  illuminant_component_ok (read_big_i32 buf 76) 8249

/-- The per-entry directory validation of skcms_Parse: size ≥ 4 and
offset + size ≤ profile.size, the sum taken in uint64_t (Nat here). -/
def tag_entry_ok (buf : Bytes) (psize : Nat) (i : Nat) : Bool :=
  decide (4 ≤ tag_size_at buf i) && decide (tag_offset_at buf i + tag_size_at buf i ≤ psize)

/-- The kTRC / rTRC+gTRC+bTRC pre-parse stage of skcms_Parse. -/
def parseTRC (buf : Bytes) (p : Profile) : Option Profile :=
  match skcms_GetTagBySignature buf p.tag_count sig_kTRC with
  | some kTRC =>
    match read_curve (buf.drop kTRC.offset) kTRC.size with
    | none => none
    | some (c, _) =>
      let diag : Matrix3x3 :=
        { p.toXYZD50 with
          m00 := p.illuminant_X, m11 := p.illuminant_Y, m22 := p.illuminant_Z }
      some { p with trc0 := c, trc1 := c, trc2 := c, has_trc := true,
                    toXYZD50 := diag, has_toXYZD50 := true }
  | none =>
    match skcms_GetTagBySignature buf p.tag_count sig_rTRC,
          skcms_GetTagBySignature buf p.tag_count sig_gTRC,
          skcms_GetTagBySignature buf p.tag_count sig_bTRC with
    | some rTRC, some gTRC, some bTRC =>
      match read_curve (buf.drop rTRC.offset) rTRC.size,
            read_curve (buf.drop gTRC.offset) gTRC.size,
            read_curve (buf.drop bTRC.offset) bTRC.size with
      | some (cr, _), some (cg, _), some (cb, _) =>
        some { p with trc0 := cr, trc1 := cg, trc2 := cb, has_trc := true }
      | _, _, _ => none
    | _, _, _ => some p

/-- The rXYZ/gXYZ/bXYZ pre-parse stage of skcms_Parse. -/
def parseXYZ (buf : Bytes) (p : Profile) : Option Profile :=
  match skcms_GetTagBySignature buf p.tag_count sig_rXYZ,
        skcms_GetTagBySignature buf p.tag_count sig_gXYZ,
        skcms_GetTagBySignature buf p.tag_count sig_bXYZ with
  | some rXYZ, some gXYZ, some bXYZ =>
    match read_to_XYZD50 buf rXYZ gXYZ bXYZ with
    | none => none
    | some m => some { p with toXYZD50 := m, has_toXYZD50 := true }
  | _, _, _ => some p

/-- The A2B pre-parse stage of skcms_Parse: prefer A2B1 over A2B0; the first
tag found is decoded and a malformed payload is fatal. -/
def parseA2B (buf : Bytes) (p : Profile) : Option Profile :=
  match skcms_GetTagBySignature buf p.tag_count sig_A2B1 with
  | some t =>
    match read_a2b buf t with
    | none => none
    | some a2b => some { p with A2B := a2b, has_A2B := true }
  | none =>
    match skcms_GetTagBySignature buf p.tag_count sig_A2B0 with
    | some t =>
      match read_a2b buf t with
      | none => none
      | some a2b => some { p with A2B := a2b, has_A2B := true }
    | none => some p

/-- skcms_Parse.  The buffer length parameter of the source is the length of
the byte list.  Guards appear in source order: header size, then signature /
size / version, then the illuminant, then the directory entries, then the
pre-parsed tags. -/
def skcms_Parse (buf : Bytes) : Option Profile :=
  if buf.length < 132 then none else
  let p := readHeader buf
  if p.signature ≠ sig_acsp ∨ buf.length < p.size ∨ p.size < 132 + p.tag_count * 12 ∨
     4 < p.version >>> 24 then none else
  if illuminant_ok buf = false then none else
  if ((List.range p.tag_count).all (tag_entry_ok buf p.size)) = false then none else
  (parseTRC buf p).bind fun p1 => (parseXYZ buf p1).bind fun p2 => parseA2B buf p2

/-! ## Curve evaluator (skcms_eval_curve, Curve.c) -/

/-- The normalized table entry i of a sampled curve: 8-bit entries divide by
255, 16-bit big-endian entries divide by 65535 (matching the table_8 branch
of skcms_eval_curve and the byte-swapped table_16 branch). -/
def curve_entry_norm (c : Curve) (i : Nat) : ℚ :=
  match c.table_8 with
  | some t8 => (byteAt t8 i : ℚ) / 255
  | none => (read_big_u16 (c.table_16.getD []) (2 * i) : ℚ) / 65535

/-- Modelled from the spec: skcms_TransferFunction_eval lives in
TransferFunction.c, which is not among the sources; the spec defines the
parametric form as y = (a x + b)^g + e for x ≥ d and y = c x + f below d.
The float powf is idealized as the real power function. -/
noncomputable def skcms_TransferFunction_eval (tf : TransferFunction) (x : ℝ) : ℝ :=
  if x < (tf.d : ℝ) then (tf.c : ℝ) * x + (tf.f : ℝ)
  else ((tf.a : ℝ) * x + (tf.b : ℝ)) ^ (tf.g : ℝ) + (tf.e : ℝ)

/-- ix = clamp(x, 0, 1) * (table_entries - 1), from skcms_eval_curve. -/
noncomputable def curve_ix (c : Curve) (x : ℝ) : ℝ :=
  max 0 (min x 1) * ((c.table_entries - 1 : ℕ) : ℝ)

/-- lo = (int)ix: ix is nonnegative, so the C truncation is the floor. -/
noncomputable def curve_lo (c : Curve) (x : ℝ) : ℤ := ⌊curve_ix c x⌋

/-- hi = (int)minus_1_ulp(ix + 1.0f): the floor of the value one ulp below
ix + 1.  In exact arithmetic the floor of any value just below ix + 1 is
⌈ix + 1⌉ - 1 = ⌈ix⌉, which is the idealization used here. -/
noncomputable def curve_hi (c : Curve) (x : ℝ) : ℤ := ⌈curve_ix c x⌉

/-- skcms_eval_curve: parametric curves go through the transfer function;
sampled curves interpolate linearly between the normalized entries lo and hi
with weight t = ix - lo. -/
noncomputable def skcms_eval_curve (c : Curve) (x : ℝ) : ℝ :=
  if c.table_entries = 0 then skcms_TransferFunction_eval c.parametric x
  else
    let t : ℝ := curve_ix c x - (curve_lo c x : ℝ)
    let l : ℝ := (curve_entry_norm c (curve_lo c x).toNat : ℚ)
    let h : ℝ := (curve_entry_norm c (curve_hi c x).toNat : ℚ)
    l + (h - l) * t

/-! ## skcms_ApproximateCurve -/

/-- The invocation of the external fitter skcms_TransferFunction_approximate
that skcms_ApproximateCurve performs: which table it passes and the entry
count.  The fitter itself (TransferFunction.c) is outside the sources and
outside every claim, so it is left abstract. -/
inductive FitterCall where
  | table16 (table : Bytes) (entries : Nat)
  | table8 (table : Bytes) (entries : Nat)
deriving DecidableEq

/-- skcms_ApproximateCurve.  The curve and output-pointer null checks are
modelled by an Option argument and a Bool; the result is the fitter call
performed, or none when the function returns false before invoking the
fitter.  The output transfer function is written only by the fitter, so a
none result also means the output is never written. -/
def skcms_ApproximateCurve (curve : Option Curve) (approx_null : Bool) : Option FitterCall :=
  match curve with
  | none => none
  | some c =>
    if c.table_entries = 0 then none else
    if approx_null then none else
    if 2147483647 < c.table_entries then none else
    match c.table_16 with
    | some t16 => some (FitterCall.table16 t16 c.table_entries)
    | none => some (FitterCall.table8 (c.table_8.getD []) c.table_entries)

/-! ## The older parametric-curve reader (skcms_ICCTag_getParametricCurve) -/

/-- skcms_ICCTag_getParametricCurve from the older source file: reads the
function type at payload offset 8 before any size check (the tag handle only
guarantees size ≥ 4), then validates size ≥ 12 + curve_bytes and decodes.
Unlike read_curve_para it has no a == 0 rejection (the float division then
yields an infinity; the rational model yields 0 — no claim depends on the
value), and the GABCDEF case does not read d (faithful to that source). -/
def skcms_ICCTag_getParametricCurve (t : ICCTag) (payload : Bytes) : Option TransferFunction :=
  if t.type ≠ sig_para then none else
  let ft := read_big_u16 payload 8
  if 4 < ft then none else
  if t.size < 12 + curve_bytes_para ft then none else
  let g := read_big_fixed payload 12
  match ft with
  | 0 => some { g := g, a := 1, b := 0, c := 0, d := 0, e := 0, f := 0 }
  | 1 =>
    let a := read_big_fixed payload 16
    let b := read_big_fixed payload 20
    some { g := g, a := a, b := b, c := 0, d := -b / a, e := 0, f := 0 }
  | 2 =>
    let a := read_big_fixed payload 16
    let b := read_big_fixed payload 20
    let e := read_big_fixed payload 24
    some { g := g, a := a, b := b, c := 0, d := -b / a, e := e, f := e }
  | 3 =>
    some { g := g, a := read_big_fixed payload 16, b := read_big_fixed payload 20,
           c := read_big_fixed payload 24, d := read_big_fixed payload 28, e := 0, f := 0 }
  | _ =>
    some { g := g, a := read_big_fixed payload 16, b := read_big_fixed payload 20,
           c := read_big_fixed payload 24, d := 0,
           e := read_big_fixed payload 32, f := read_big_fixed payload 36 }

/-- Instrumentation of skcms_ICCTag_getParametricCurve: true exactly when
every payload read it performs lies within the tag's size bytes.  It mirrors
the control flow; each conjunct records one read (its end offset against
t.size).  The function-type u16 at offset 8 is read unconditionally once the
type is para; parameter reads happen only after the size validation. -/
def getParametricCurve_reads_ok (t : ICCTag) (payload : Bytes) : Bool :=
  if t.type ≠ sig_para then true else
  decide (8 + 2 ≤ t.size) &&
  (let ft := read_big_u16 payload 8
   if 4 < ft then true else
   if t.size < 12 + curve_bytes_para ft then true else
   decide (12 + 4 ≤ t.size) &&
   match ft with
   | 0 => true
   | 1 => decide (16 + 4 ≤ t.size) && decide (20 + 4 ≤ t.size)
   | 2 => decide (16 + 4 ≤ t.size) && decide (20 + 4 ≤ t.size) && decide (24 + 4 ≤ t.size)
   | 3 => decide (16 + 4 ≤ t.size) && decide (20 + 4 ≤ t.size) && decide (24 + 4 ≤ t.size) &&
          decide (28 + 4 ≤ t.size)
   | _ => decide (16 + 4 ≤ t.size) && decide (20 + 4 ≤ t.size) && decide (24 + 4 ≤ t.size) &&
          decide (32 + 4 ≤ t.size) && decide (36 + 4 ≤ t.size))

/-- Instrumentation of skcms_GetTagByIndex: true exactly when the reads it
performs once the guard accepts idx — the 12 directory-entry bytes at
132 + 12 idx and the 4 payload type bytes at the recorded offset — lie
within the buffer. -/
def getTagByIndex_reads_ok (buf : Bytes) (idx : Nat) : Bool :=
  decide (132 + 12 * idx + 12 ≤ buf.length) &&
  decide (tag_offset_at buf idx + 4 ≤ buf.length)

/-! ## Concrete inputs -/

/-- A well-formed 132-byte ICC header (signature acsp, major version 2, D50
illuminant: X = 63190/65536, Y = 1, Z = 54069/65536) with the given profile
size byte and tag count byte (both < 256). -/
def iccHeader (psize tagCount : Nat) : Bytes :=
  [0, 0, 0, psize] ++ List.replicate 4 0 ++ [2, 0, 0, 0] ++ List.replicate 24 0 ++
  [0x61, 0x63, 0x73, 0x70] ++ List.replicate 28 0 ++
  [0, 0, 0xF6, 0xD6, 0, 1, 0, 0, 0, 0, 0xD3, 0x35] ++ List.replicate 48 0 ++
  [0, 0, 0, tagCount]

/-- The minimal valid profile: 132 bytes, no tags. -/
def minimalBuf : Bytes := iccHeader 132 0

/-- A 158-byte profile with one kTRC tag holding a one-entry curv (value
0x0100, i.e. gamma 1). -/
def kTRCBuf : Bytes :=
  iccHeader 158 1 ++
  [0x6B, 0x54, 0x52, 0x43, 0, 0, 0, 144, 0, 0, 0, 14] ++
  [0x63, 0x75, 0x72, 0x76, 0, 0, 0, 0, 0, 0, 0, 1, 1, 0]

/-- A 206-byte profile whose kTRC tag is malformed (a curv that declares one
value but whose tag size 12 cannot hold it) while rTRC, gTRC and bTRC all
point at a well-formed one-entry curv. -/
def badKTRCBuf : Bytes :=
  iccHeader 206 4 ++
  [0x6B, 0x54, 0x52, 0x43, 0, 0, 0, 180, 0, 0, 0, 12] ++
  [0x72, 0x54, 0x52, 0x43, 0, 0, 0, 192, 0, 0, 0, 14] ++
  [0x67, 0x54, 0x52, 0x43, 0, 0, 0, 192, 0, 0, 0, 14] ++
  [0x62, 0x54, 0x52, 0x43, 0, 0, 0, 192, 0, 0, 0, 14] ++
  [0x63, 0x75, 0x72, 0x76, 0, 0, 0, 0, 0, 0, 0, 1] ++
  [0x63, 0x75, 0x72, 0x76, 0, 0, 0, 0, 0, 0, 0, 1, 1, 0]

/-- A 148-byte profile with one tag of signature 0x78787878 whose 4-byte
payload is just the type signature para: the minimal directory entry the
parser accepts (size 4), and the failing input for the older parametric
reader. -/
def paraBuf : Bytes :=
  iccHeader 148 1 ++
  [0x78, 0x78, 0x78, 0x78, 0, 0, 0, 144, 0, 0, 0, 4] ++
  [0x70, 0x61, 0x72, 0x61]

/-- The profile parsed from minimalBuf. -/
def profMinimal : Profile := (skcms_Parse minimalBuf).getD default

/-- The profile parsed from kTRCBuf. -/
def profKTRC : Profile := (skcms_Parse kTRCBuf).getD default

/-- The kTRC tag handle of kTRCBuf. -/
def tagKTRC : ICCTag :=
  (skcms_GetTagBySignature kTRCBuf (read_big_u32 kTRCBuf 128) sig_kTRC).getD default

/-- The kTRC tag handle of badKTRCBuf. -/
def tagBadKTRC : ICCTag :=
  (skcms_GetTagBySignature badKTRCBuf (read_big_u32 badKTRCBuf 128) sig_kTRC).getD default

/-- The single tag handle of paraBuf. -/
def tagPara : ICCTag :=
  (skcms_GetTagByIndex paraBuf (read_big_u32 paraBuf 128) 0).getD default

/-- A one-entry curv payload with value 0x0200 (gamma 2). -/
def curvW : Bytes := [0x63, 0x75, 0x72, 0x76, 0, 0, 0, 0, 0, 0, 0, 1, 2, 0]

/-- A para payload of function type 1 with g = 1, a = 1, b = 1/2. -/
def paraW : Bytes :=
  [0x70, 0x61, 0x72, 0x61, 0, 0, 0, 0, 0, 1, 0, 0,
   0, 1, 0, 0, 0, 1, 0, 0, 0, 0, 0x80, 0]

/-- A 32-byte mAB layout whose five sub-offsets are all zero. -/
def mabZeroW : Bytes := List.replicate 32 0

/-- A 52-byte mft2 layout with 3 input and 3 output channels, 2 grid points,
input_table_entries = 1 (out of range) and output_table_entries = 2. -/
def mft2W : Bytes :=
  List.replicate 8 0 ++ [3, 3, 2, 0] ++ List.replicate 36 0 ++ [0, 1, 0, 2]

/-- A two-entry 16-bit sampled curve with entries 0x0000 and 0xFFFF. -/
def sampleCurve2 : Curve :=
  { table_entries := 2, table_8 := none, table_16 := some [0, 0, 255, 255], parametric := {} }

/-! ## Helper lemmas -/

lemma illuminant_component_close (i c : Int) (h : illuminant_component_ok i c = true) :
    |(i : ℚ) / 65536 - (c : ℚ) / 10000| ≤ 1 / 100 := by
  unfold illuminant_component_ok at h
  rw [decide_eq_true_eq] at h
  have h2 : -6553600 ≤ 10000 * i - 65536 * c ∧ 10000 * i - 65536 * c ≤ 6553600 := by omega
  obtain ⟨hl, hr⟩ := h2
  have hlq : (-6553600 : ℚ) ≤ 10000 * (i : ℚ) - 65536 * (c : ℚ) := by exact_mod_cast hl
  have hrq : 10000 * (i : ℚ) - 65536 * (c : ℚ) ≤ 6553600 := by exact_mod_cast hr
  rw [abs_le]
  constructor <;> linarith

lemma parseTRC_header (buf : Bytes) (p q : Profile) (h : parseTRC buf p = some q) :
    q.size = p.size ∧ q.tag_count = p.tag_count ∧ q.signature = p.signature ∧
    q.version = p.version ∧ q.illuminant_X = p.illuminant_X ∧
    q.illuminant_Y = p.illuminant_Y ∧ q.illuminant_Z = p.illuminant_Z := by
  unfold parseTRC at h
  repeat' split at h
  all_goals first
    | exact Option.noConfusion h
    | (injection h with h2
       subst h2
       exact ⟨rfl, rfl, rfl, rfl, rfl, rfl, rfl⟩)

lemma parseXYZ_facts (buf : Bytes) (p q : Profile) (h : parseXYZ buf p = some q) :
    q.size = p.size ∧ q.tag_count = p.tag_count ∧ q.signature = p.signature ∧
    q.version = p.version ∧ q.illuminant_X = p.illuminant_X ∧
    q.illuminant_Y = p.illuminant_Y ∧ q.illuminant_Z = p.illuminant_Z ∧
    q.trc0 = p.trc0 ∧ q.trc1 = p.trc1 ∧ q.trc2 = p.trc2 ∧ q.has_trc = p.has_trc ∧
    (p.has_toXYZD50 = true → q.has_toXYZD50 = true) := by
  unfold parseXYZ at h
  repeat' split at h
  all_goals first
    | exact Option.noConfusion h
    | (injection h with h2
       subst h2
       exact ⟨rfl, rfl, rfl, rfl, rfl, rfl, rfl, rfl, rfl, rfl, rfl, fun _ => rfl⟩)
    | (injection h with h2
       subst h2
       exact ⟨rfl, rfl, rfl, rfl, rfl, rfl, rfl, rfl, rfl, rfl, rfl, fun hh => hh⟩)

lemma parseA2B_facts (buf : Bytes) (p q : Profile) (h : parseA2B buf p = some q) :
    q.size = p.size ∧ q.tag_count = p.tag_count ∧ q.signature = p.signature ∧
    q.version = p.version ∧ q.illuminant_X = p.illuminant_X ∧
    q.illuminant_Y = p.illuminant_Y ∧ q.illuminant_Z = p.illuminant_Z ∧
    q.trc0 = p.trc0 ∧ q.trc1 = p.trc1 ∧ q.trc2 = p.trc2 ∧ q.has_trc = p.has_trc ∧
    q.toXYZD50 = p.toXYZD50 ∧ q.has_toXYZD50 = p.has_toXYZD50 := by
  unfold parseA2B at h
  repeat' split at h
  all_goals first
    | exact Option.noConfusion h
    | (injection h with h2
       subst h2
       exact ⟨rfl, rfl, rfl, rfl, rfl, rfl, rfl, rfl, rfl, rfl, rfl, rfl, rfl⟩)

lemma skcms_Parse_some (buf : Bytes) (P : Profile) (h : skcms_Parse buf = some P) :
    132 ≤ buf.length ∧
    (readHeader buf).signature = sig_acsp ∧
    (readHeader buf).size ≤ buf.length ∧
    132 + (readHeader buf).tag_count * 12 ≤ (readHeader buf).size ∧
    (readHeader buf).version >>> 24 ≤ 4 ∧
    illuminant_ok buf = true ∧
    (List.range (readHeader buf).tag_count).all (tag_entry_ok buf (readHeader buf).size) = true ∧
    ∃ p1 p2, parseTRC buf (readHeader buf) = some p1 ∧ parseXYZ buf p1 = some p2 ∧
             parseA2B buf p2 = some P := by
  simp only [skcms_Parse] at h
  split_ifs at h with h1 h2 h3 h4
  rw [Option.bind_eq_some] at h
  obtain ⟨p1, hp1, h⟩ := h
  rw [Option.bind_eq_some] at h
  obtain ⟨p2, hp2, hp3⟩ := h
  push_neg at h2
  obtain ⟨h2a, h2b, h2c, h2d⟩ := h2
  refine ⟨by omega, h2a, by omega, by omega, by omega, ?_, ?_, p1, p2, hp1, hp2, hp3⟩
  · rcases hi : illuminant_ok buf with _ | _
    · exact absurd hi h3
    · rfl
  · rcases hd : (List.range (readHeader buf).tag_count).all
        (tag_entry_ok buf (readHeader buf).size) with _ | _
    · exact absurd hd h4
    · rfl

/-- The header fields of a successfully parsed profile agree with readHeader
(the pre-parse stages only touch the trc/toXYZD50/A2B materializations). -/
lemma skcms_Parse_header (buf : Bytes) (P : Profile) (h : skcms_Parse buf = some P) :
    P.size = (readHeader buf).size ∧ P.tag_count = (readHeader buf).tag_count ∧
    P.signature = (readHeader buf).signature ∧ P.version = (readHeader buf).version ∧
    P.illuminant_X = (readHeader buf).illuminant_X ∧
    P.illuminant_Y = (readHeader buf).illuminant_Y ∧
    P.illuminant_Z = (readHeader buf).illuminant_Z := by
  obtain ⟨-, -, -, -, -, -, -, p1, p2, hp1, hp2, hp3⟩ := skcms_Parse_some buf P h
  obtain ⟨a1, a2, a3, a4, a5, a6, a7⟩ := parseTRC_header buf (readHeader buf) p1 hp1
  obtain ⟨b1, b2, b3, b4, b5, b6, b7, -⟩ := parseXYZ_facts buf p1 p2 hp2
  obtain ⟨c1, c2, c3, c4, c5, c6, c7, -⟩ := parseA2B_facts buf p2 P hp3
  exact ⟨by rw [c1, b1, a1], by rw [c2, b2, a2], by rw [c3, b3, a3], by rw [c4, b4, a4],
         by rw [c5, b5, a5], by rw [c6, b6, a6], by rw [c7, b7, a7]⟩

lemma tag_entry_ok_spec (buf : Bytes) (psize i : Nat) (h : tag_entry_ok buf psize i = true) :
    4 ≤ tag_size_at buf i ∧ tag_offset_at buf i + tag_size_at buf i ≤ psize := by
  unfold tag_entry_ok at h
  rw [Bool.and_eq_true, decide_eq_true_eq, decide_eq_true_eq] at h
  exact h

set_option maxRecDepth 400000

/-! ## Claim theorems -/

/-- C1: every Profile returned by skcms_Parse satisfies: signature is acsp,
profile.size is at most the buffer length and at least 132 + 12 * tag_count,
the major version byte (version >> 24) is at most 4, each illuminant
component is within 0.01 of D50 = (0.9642, 1.0000, 0.8249), and every
directory entry i < tag_count has size ≥ 4 and offset + size ≤ profile.size
with the sum computed without 32-bit truncation. -/
theorem C1_parse_validates (buf : Bytes) (P : Profile) (h : skcms_Parse buf = some P) :
    P.signature = sig_acsp ∧
    P.size ≤ buf.length ∧
    132 + 12 * P.tag_count ≤ P.size ∧
    P.version >>> 24 ≤ 4 ∧
    |P.illuminant_X - 9642 / 10000| ≤ 1 / 100 ∧
    |P.illuminant_Y - 1| ≤ 1 / 100 ∧
    |P.illuminant_Z - 8249 / 10000| ≤ 1 / 100 ∧
    ∀ i, i < P.tag_count →
      4 ≤ tag_size_at buf i ∧ tag_offset_at buf i + tag_size_at buf i ≤ P.size := by
  obtain ⟨hlen, hsig, hsz, htab, hver, hill, hdir, p1, p2, hp1, hp2, hp3⟩ :=
    skcms_Parse_some buf P h
  obtain ⟨e1, e2, e3, e4, e5, e6, e7⟩ := skcms_Parse_header buf P h
  unfold illuminant_ok at hill
  rw [Bool.and_eq_true, Bool.and_eq_true] at hill
  obtain ⟨⟨hX, hY⟩, hZ⟩ := hill
  refine ⟨by rw [e3]; exact hsig, by rw [e1]; exact hsz, by rw [e2, e1]; omega,
          by rw [e4]; exact hver, ?_, ?_, ?_, ?_⟩
  · rw [e5]
    have hc := illuminant_component_close (read_big_i32 buf 68) 9642 hX
    push_cast at hc
    simpa [readHeader, read_big_fixed] using hc
  · rw [e6]
    have hc := illuminant_component_close (read_big_i32 buf 72) 10000 hY
    push_cast at hc
    rw [show ((10000 : ℚ) / 10000) = 1 by norm_num] at hc
    simpa [readHeader, read_big_fixed] using hc
  · rw [e7]
    have hc := illuminant_component_close (read_big_i32 buf 76) 8249 hZ
    push_cast at hc
    simpa [readHeader, read_big_fixed] using hc
  · intro i hi
    rw [e2] at hi
    have hm := List.all_eq_true.mp hdir i (List.mem_range.mpr hi)
    obtain ⟨ha, hb⟩ := tag_entry_ok_spec buf _ i hm
    exact ⟨ha, by rw [e1]; exact hb⟩

/-- Witness for C1: the minimal valid 132-byte profile parses and the
validated facts hold for it. -/
theorem C1_parse_validates_witness :
    profMinimal.signature = sig_acsp ∧ profMinimal.size ≤ minimalBuf.length ∧
    |profMinimal.illuminant_X - 9642 / 10000| ≤ 1 / 100 := by
  obtain ⟨w1, w2, -, -, w5, -⟩ := C1_parse_validates minimalBuf profMinimal (by rfl)
  exact ⟨w1, w2, w5⟩

/-- All three of rXYZ, gXYZ, bXYZ are present in the directory. -/
def allXYZ_present (buf : Bytes) (tag_count : Nat) : Bool :=
  (skcms_GetTagBySignature buf tag_count sig_rXYZ).isSome &&
  (skcms_GetTagBySignature buf tag_count sig_gXYZ).isSome &&
  (skcms_GetTagBySignature buf tag_count sig_bXYZ).isSome

lemma parseXYZ_absent (buf : Bytes) (p : Profile)
    (hx : allXYZ_present buf p.tag_count = false) : parseXYZ buf p = some p := by
  unfold allXYZ_present at hx
  unfold parseXYZ
  rcases h1 : skcms_GetTagBySignature buf p.tag_count sig_rXYZ with _ | t1 <;>
    rcases h2 : skcms_GetTagBySignature buf p.tag_count sig_gXYZ with _ | t2 <;>
      rcases h3 : skcms_GetTagBySignature buf p.tag_count sig_bXYZ with _ | t3 <;>
        simp_all

lemma parseTRC_kTRC_found (buf : Bytes) (p q : Profile) (t : ICCTag)
    (hk : skcms_GetTagBySignature buf p.tag_count sig_kTRC = some t)
    (h : parseTRC buf p = some q) :
    ∃ c n, read_curve (buf.drop t.offset) t.size = some (c, n) ∧
      q.trc0 = c ∧ q.trc1 = c ∧ q.trc2 = c ∧ q.has_trc = true ∧ q.has_toXYZD50 = true ∧
      q.toXYZD50 = { p.toXYZD50 with
                     m00 := p.illuminant_X, m11 := p.illuminant_Y, m22 := p.illuminant_Z } := by
  unfold parseTRC at h
  simp only [hk] at h
  split at h
  · exact Option.noConfusion h
  · rename_i c n heq
    injection h with h2
    subst h2
    exact ⟨c, n, heq, rfl, rfl, rfl, rfl, rfl, rfl⟩

lemma parseTRC_kTRC_malformed (buf : Bytes) (p : Profile) (t : ICCTag)
    (hk : skcms_GetTagBySignature buf p.tag_count sig_kTRC = some t)
    (hr : read_curve (buf.drop t.offset) t.size = none) : parseTRC buf p = none := by
  unfold parseTRC
  simp only [hk, hr]

/-- C2: whenever a kTRC tag is present, a successful parse decodes its
payload as a Curve, replicates it into all three TRC slots, sets has_trc,
sets has_toXYZD50 and (unless all of rXYZ/gXYZ/bXYZ later overwrite the
matrix) leaves toXYZD50 the diagonal matrix of the header illuminant with
zeros elsewhere; and if the kTRC payload is malformed the whole parse fails,
regardless of any well-formed rTRC/gTRC/bTRC tags. -/
theorem C2_kTRC_preparse (buf : Bytes) (t : ICCTag)
    (hk : skcms_GetTagBySignature buf (read_big_u32 buf 128) sig_kTRC = some t) :
    (read_curve (buf.drop t.offset) t.size = none → skcms_Parse buf = none) ∧
    (∀ P, skcms_Parse buf = some P →
      ∃ c n, read_curve (buf.drop t.offset) t.size = some (c, n) ∧
        P.trc0 = c ∧ P.trc1 = c ∧ P.trc2 = c ∧ P.has_trc = true ∧ P.has_toXYZD50 = true ∧
        (allXYZ_present buf (read_big_u32 buf 128) = false →
          P.toXYZD50 =
            { m00 := (readHeader buf).illuminant_X, m01 := 0, m02 := 0,
              m10 := 0, m11 := (readHeader buf).illuminant_Y, m12 := 0,
              m20 := 0, m21 := 0, m22 := (readHeader buf).illuminant_Z })) := by
  have hk2 : skcms_GetTagBySignature buf (readHeader buf).tag_count sig_kTRC = some t := hk
  constructor
  · intro hr
    simp only [skcms_Parse]
    split_ifs
    · rfl
    · rfl
    · rfl
    · rfl
    · rw [parseTRC_kTRC_malformed buf (readHeader buf) t hk2 hr]
      rfl
  · intro P hP
    obtain ⟨-, -, -, -, -, -, -, p1, p2, hp1, hp2, hp3⟩ := skcms_Parse_some buf P hP
    obtain ⟨c, n, hc, e0, e1, e2, eht, ehx, etox⟩ :=
      parseTRC_kTRC_found buf (readHeader buf) p1 t hk2 hp1
    obtain ⟨-, x2, -, -, -, -, -, x8, x9, x10, x11, x12⟩ := parseXYZ_facts buf p1 p2 hp2
    obtain ⟨-, -, -, -, -, -, -, a8, a9, a10, a11, a12, a13⟩ := parseA2B_facts buf p2 P hp3
    obtain ⟨t1, t2, -⟩ := parseTRC_header buf (readHeader buf) p1 hp1
    refine ⟨c, n, hc, by rw [a8, x8, e0], by rw [a9, x9, e1], by rw [a10, x10, e2],
            by rw [a11, x11, eht], by rw [a13]; exact x12 ehx, ?_⟩
    intro hxyz
    have hxyz1 : allXYZ_present buf p1.tag_count = false := by
      rw [t2]; exact hxyz
    have hsame := parseXYZ_absent buf p1 hxyz1
    rw [hp2] at hsame
    injection hsame with hsame
    subst hsame
    rw [a12, etox]
    rfl

/-- Witness for C2: the kTRC profile parses with the curve replicated and
the flags set, and the profile whose kTRC is malformed (with well-formed
rTRC/gTRC/bTRC present) fails to parse. -/
theorem C2_kTRC_preparse_witness :
    profKTRC.has_trc = true ∧ profKTRC.trc0 = profKTRC.trc1 ∧
    profKTRC.trc1 = profKTRC.trc2 ∧ profKTRC.has_toXYZD50 = true ∧
    skcms_Parse badKTRCBuf = none := by
  obtain ⟨-, hgood⟩ := C2_kTRC_preparse kTRCBuf tagKTRC (by rfl)
  obtain ⟨c, n, -, e0, e1, e2, ht, hx, -⟩ := hgood profKTRC (by rfl)
  refine ⟨ht, by rw [e0, e1], by rw [e1, e2], hx, ?_⟩
  exact (C2_kTRC_preparse badKTRCBuf tagBadKTRC (by rfl)).1 (by rfl)

lemma read_big_fixed_eq_zero_iff (b : Bytes) (i : Nat) :
    read_big_fixed b i = 0 ↔ read_big_i32 b i = 0 := by
  unfold read_big_fixed
  rw [div_eq_zero_iff]
  norm_num

lemma read_curve_para_ft1 (buf : Bytes) (size : Nat) (h1 : read_big_u16 buf 8 = 1)
    (hsz : 24 ≤ size) :
    read_curve_para buf size =
      if read_big_i32 buf 16 = 0 then none else
      some ({ parametric :=
        { g := read_big_fixed buf 12, a := read_big_fixed buf 16, b := read_big_fixed buf 20,
          c := 0, d := -read_big_fixed buf 20 / read_big_fixed buf 16, e := 0, f := 0 } },
        24) := by
  simp only [read_curve_para, h1]
  rw [if_neg (by omega : ¬ size < 12)]
  rw [if_neg (by norm_num : ¬ (4 : ℕ) < 1)]
  rw [if_neg (by simp only [curve_bytes_para]; omega : ¬ size < 12 + curve_bytes_para 1)]
  rfl

lemma read_curve_para_ft2 (buf : Bytes) (size : Nat) (h1 : read_big_u16 buf 8 = 2)
    (hsz : 28 ≤ size) :
    read_curve_para buf size =
      if read_big_i32 buf 16 = 0 then none else
      some ({ parametric :=
        { g := read_big_fixed buf 12, a := read_big_fixed buf 16, b := read_big_fixed buf 20,
          c := 0, d := -read_big_fixed buf 20 / read_big_fixed buf 16,
          e := read_big_fixed buf 24, f := read_big_fixed buf 24 } },
        28) := by
  simp only [read_curve_para, h1]
  rw [if_neg (by omega : ¬ size < 12)]
  rw [if_neg (by norm_num : ¬ (4 : ℕ) < 2)]
  rw [if_neg (by simp only [curve_bytes_para]; omega : ¬ size < 12 + curve_bytes_para 2)]
  rfl

/-- C4: for a para payload of function type 1 or 2 (GAB, GABC) that is large
enough, the decoder errors exactly when the decoded parameter a is zero; on
success it sets d = -b/a (the float division modelled as exact rational
division of the exactly-decoded 15.16 values), and for type 2 additionally
f = e. -/
theorem C4_para_continuity (buf : Bytes) (size : Nat)
    (hft : read_big_u16 buf 8 = 1 ∨ read_big_u16 buf 8 = 2)
    (hsz : 12 + curve_bytes_para (read_big_u16 buf 8) ≤ size) :
    (read_big_fixed buf 16 = 0 → read_curve_para buf size = none) ∧
    (read_big_fixed buf 16 ≠ 0 → (read_curve_para buf size).isSome = true) ∧
    (∀ c n, read_curve_para buf size = some (c, n) →
      c.parametric.a = read_big_fixed buf 16 ∧ c.parametric.b = read_big_fixed buf 20 ∧
      c.parametric.d = -c.parametric.b / c.parametric.a ∧
      (read_big_u16 buf 8 = 2 → c.parametric.f = c.parametric.e)) := by
  have hz := read_big_fixed_eq_zero_iff buf 16
  rcases hft with h1 | h1
  · rw [h1] at hsz
    simp only [curve_bytes_para] at hsz
    rw [read_curve_para_ft1 buf size h1 hsz]
    refine ⟨fun h0 => if_pos (hz.mp h0), fun h0 => ?_, fun c n hc => ?_⟩
    · rw [if_neg (fun hi => h0 (hz.mpr hi))]
      rfl
    · by_cases hi : read_big_i32 buf 16 = 0
      · rw [if_pos hi] at hc
        exact Option.noConfusion hc
      · rw [if_neg hi] at hc
        injection hc with hc
        injection hc with hA hB
        subst hA
        exact ⟨rfl, rfl, rfl, fun _ => rfl⟩
  · rw [h1] at hsz
    simp only [curve_bytes_para] at hsz
    rw [read_curve_para_ft2 buf size h1 hsz]
    refine ⟨fun h0 => if_pos (hz.mp h0), fun h0 => ?_, fun c n hc => ?_⟩
    · rw [if_neg (fun hi => h0 (hz.mpr hi))]
      rfl
    · by_cases hi : read_big_i32 buf 16 = 0
      · rw [if_pos hi] at hc
        exact Option.noConfusion hc
      · rw [if_neg hi] at hc
        injection hc with hc
        injection hc with hA hB
        subst hA
        exact ⟨rfl, rfl, rfl, fun _ => rfl⟩

/-- Witness for C4 at a concrete GAB payload with g = 1, a = 1, b = 1/2:
decoding succeeds and the continuity condition holds there. -/
theorem C4_para_continuity_witness :
    (read_curve_para paraW 24).isSome = true := by
  obtain ⟨-, hsome, -⟩ := C4_para_continuity paraW 24 (Or.inl (by decide)) (by decide)
  refine hsome ?_
  rw [Ne, read_big_fixed_eq_zero_iff]
  decide

/-- The parametric curve a short curv tag canonicalizes to: identity when
G = 1 (empty table), pure gamma G otherwise. -/
def gammaCurve (G : ℚ) : Curve :=
  { table_entries := 0, table_8 := none, table_16 := none,
    parametric := { g := G, a := 1, b := 0, c := 0, d := 0, e := 0, f := 0 } }

lemma read_curve_curv_vc0 (buf : Bytes) (size : Nat) (hvc : read_big_u32 buf 8 = 0)
    (hsz : 12 ≤ size) :
    read_curve_curv buf size = some (gammaCurve 1, 12) := by
  simp only [read_curve_curv, hvc]
  rw [if_neg (by omega), if_neg (by omega), if_pos (by norm_num)]
  norm_num [gammaCurve]

lemma read_curve_curv_vc1 (buf : Bytes) (size : Nat) (hvc : read_big_u32 buf 8 = 1)
    (hsz : 14 ≤ size) :
    read_curve_curv buf size = some (gammaCurve ((read_big_u16 buf 12 : ℚ) / 256), 14) := by
  simp only [read_curve_curv, hvc]
  rw [if_neg (by omega), if_neg (by omega), if_pos (by norm_num)]
  norm_num [gammaCurve]

lemma read_curve_curv_table (buf : Bytes) (size : Nat) (hvc : 2 ≤ read_big_u32 buf 8)
    (hsz : 12 + read_big_u32 buf 8 * 2 ≤ size) :
    read_curve_curv buf size =
      some ({ table_entries := read_big_u32 buf 8, table_8 := none,
              table_16 := some ((buf.drop 12).take (read_big_u32 buf 8 * 2)),
              parametric := { g := 0, a := 0, b := 0, c := 0, d := 0, e := 0, f := 0 } },
            12 + read_big_u32 buf 8 * 2) := by
  simp only [read_curve_curv]
  rw [if_neg (by omega), if_neg (by omega), if_neg (by omega)]

lemma eval_pure_gamma (G : ℚ) (x : ℝ) (h0 : 0 ≤ x) :
    skcms_eval_curve (gammaCurve G) x = x ^ (G : ℝ) := by
  unfold skcms_eval_curve skcms_TransferFunction_eval gammaCurve
  rw [if_pos rfl]
  rw [if_neg (by push_cast; linarith)]
  push_cast
  rw [one_mul, add_zero, add_zero]

/-- C3: a curv payload large enough for its declared value_count decodes,
and: value_count 0 gives a parametric curve eval-identical to the identity
on the unit interval; value_count 1 with raw big-endian u16 value v gives a
parametric curve eval-identical to x ^ (v/256); value_count ≥ 2 gives a
sampled table with table_entries = value_count borrowing the payload bytes
as 16-bit big-endian entries. -/
theorem C3_curv_cases (buf : Bytes) (size : Nat)
    (hsz : 12 + 2 * read_big_u32 buf 8 ≤ size) :
    (read_curve_curv buf size).isSome = true ∧
    (read_big_u32 buf 8 = 0 → ∀ c n, read_curve_curv buf size = some (c, n) →
      c.table_entries = 0 ∧ ∀ x : ℝ, 0 ≤ x → x ≤ 1 → skcms_eval_curve c x = x) ∧
    (read_big_u32 buf 8 = 1 → ∀ c n, read_curve_curv buf size = some (c, n) →
      c.table_entries = 0 ∧ ∀ x : ℝ, 0 ≤ x → x ≤ 1 →
        skcms_eval_curve c x = x ^ ((read_big_u16 buf 12 : ℝ) / 256)) ∧
    (2 ≤ read_big_u32 buf 8 → ∀ c n, read_curve_curv buf size = some (c, n) →
      c.table_entries = read_big_u32 buf 8 ∧ c.table_8 = none ∧
      c.table_16 = some ((buf.drop 12).take (read_big_u32 buf 8 * 2))) := by
  refine ⟨?_, ?_, ?_, ?_⟩
  · by_cases h0 : read_big_u32 buf 8 = 0
    · rw [read_curve_curv_vc0 buf size h0 (by omega)]
      rfl
    · by_cases h1 : read_big_u32 buf 8 = 1
      · rw [read_curve_curv_vc1 buf size h1 (by omega)]
        rfl
      · rw [read_curve_curv_table buf size (by omega) (by omega)]
        rfl
  · intro hvc c n hc
    rw [read_curve_curv_vc0 buf size hvc (by omega)] at hc
    injection hc with hc
    injection hc with hA hB
    subst hA
    refine ⟨rfl, fun x hx0 hx1 => ?_⟩
    rw [eval_pure_gamma 1 x hx0, Rat.cast_one, Real.rpow_one]
  · intro hvc c n hc
    rw [read_curve_curv_vc1 buf size hvc (by omega)] at hc
    injection hc with hc
    injection hc with hA hB
    subst hA
    refine ⟨rfl, fun x hx0 hx1 => ?_⟩
    rw [eval_pure_gamma ((read_big_u16 buf 12 : ℚ) / 256) x hx0]
    congr 1
    push_cast
    rfl
  · intro hvc c n hc
    rw [read_curve_curv_table buf size hvc (by omega)] at hc
    injection hc with hc
    injection hc with hA hB
    subst hA
    exact ⟨rfl, rfl, rfl⟩

/-- Witness for C3 at the concrete one-entry curv payload with value 0x0200:
decoding succeeds and yields a parametric (table-free) curve. -/
theorem C3_curv_cases_witness :
    (read_curve_curv curvW 14).isSome = true ∧
    ((read_curve_curv curvW 14).getD (gammaCurve 1, 0)).1.table_entries = 0 := by
  obtain ⟨hsome, -, hone, -⟩ := C3_curv_cases curvW 14 (by decide)
  refine ⟨hsome, ?_⟩
  obtain ⟨hte, -⟩ := hone (by decide)
    ((read_curve_curv curvW 14).getD (gammaCurve 1, 0)).1
    ((read_curve_curv curvW 14).getD (gammaCurve 1, 0)).2 (by rfl)
  exact hte

/-- C10: skcms_ApproximateCurve returns failure without invoking the fitter
(hence without writing the output transfer function) whenever the curve
pointer is null, the output pointer is null, the curve is parametric
(table_entries = 0), or table_entries exceeds INT_MAX; any fitter call it
does perform is on a sampled curve with table_entries in [1, INT_MAX]. -/
theorem C10_approximate_guards (curve : Option Curve) (approx_null : Bool) :
    (curve = none → skcms_ApproximateCurve curve approx_null = none) ∧
    (approx_null = true → skcms_ApproximateCurve curve approx_null = none) ∧
    (∀ c, curve = some c → c.table_entries = 0 →
      skcms_ApproximateCurve curve approx_null = none) ∧
    (∀ c, curve = some c → 2147483647 < c.table_entries →
      skcms_ApproximateCurve curve approx_null = none) ∧
    (∀ c fc, curve = some c → skcms_ApproximateCurve curve approx_null = some fc →
      1 ≤ c.table_entries ∧ c.table_entries ≤ 2147483647) := by
  refine ⟨fun h => by subst h; rfl, fun h => ?_, fun c h h0 => ?_, fun c h hbig => ?_,
          fun c fc h hfc => ?_⟩
  · subst h
    rcases curve with _ | c
    · rfl
    · simp only [skcms_ApproximateCurve]
      split_ifs <;> rfl
  · subst h
    simp only [skcms_ApproximateCurve]
    rw [if_pos h0]
  · subst h
    simp only [skcms_ApproximateCurve]
    split_ifs with h1 h2
    · rfl
    · rfl
    · rfl
  · subst h
    simp only [skcms_ApproximateCurve] at hfc
    by_cases h1 : c.table_entries = 0
    · rw [if_pos h1] at hfc
      exact Option.noConfusion hfc
    · rw [if_neg h1] at hfc
      by_cases h2 : approx_null = true
      · rw [if_pos h2] at hfc
        exact Option.noConfusion hfc
      · rw [if_neg h2] at hfc
        by_cases h3 : 2147483647 < c.table_entries
        · rw [if_pos h3] at hfc
          exact Option.noConfusion hfc
        · rw [if_neg h3] at hfc
          omega

/-- Witness for C10: a parametric curve (the zero-initialized default) is
rejected without a fitter call. -/
theorem C10_approximate_guards_witness :
    skcms_ApproximateCurve (some { table_entries := 0, table_8 := none, table_16 := none,
                                   parametric := { g := 0, a := 0, b := 0, c := 0, d := 0,
                                                   e := 0, f := 0 } }) false = none := by
  exact (C10_approximate_guards _ false).2.2.1 _ rfl rfl

/-- C7: read_tag_mft2 fails whenever either 16-bit table entry count lies
outside [2, 4096]; the counts 1 and 4097 fail the range check while 2 and
4096 pass it. -/
theorem C7_mft2_range (buf : Bytes) (size : Nat) :
    (mft2_entries_in_range (read_big_u16 buf 48) (read_big_u16 buf 50) = false →
      read_tag_mft2 buf size = none) ∧
    mft2_entries_in_range 1 2 = false ∧
    mft2_entries_in_range 4097 2 = false ∧
    mft2_entries_in_range 2 1 = false ∧
    mft2_entries_in_range 2 4097 = false ∧
    mft2_entries_in_range 2 2 = true ∧
    mft2_entries_in_range 4096 4096 = true := by
  refine ⟨fun h => ?_, by decide, by decide, by decide, by decide, by decide, by decide⟩
  simp only [read_tag_mft2]
  split_ifs with h1
  · rfl
  · rcases hm : read_mft_common buf with _ | a2b
    · rfl
    · rfl

/-- Witness for C7: the concrete mft2 tag with input_table_entries = 1 is
rejected. -/
theorem C7_mft2_range_witness : read_tag_mft2 mft2W 52 = none := by
  exact (C7_mft2_range mft2W 52).1 (by decide)


lemma mab_m_stage_mismatch (buf : Bytes) (size outCh : Nat)
    (hm : ¬ (read_big_u32 buf 20 = 0 ↔ read_big_u32 buf 16 = 0)) :
    mab_m_stage buf size outCh = none := by
  simp only [mab_m_stage]
  by_cases h0 : read_big_u32 buf 20 ≠ 0
  · have hmat : read_big_u32 buf 16 = 0 := by
      by_contra hmat
      exact hm ⟨fun h => absurd h h0, fun h => absurd h hmat⟩
    rw [if_pos h0, if_pos hmat]
  · have hm0 : read_big_u32 buf 20 = 0 := not_not.mp h0
    have hmat : read_big_u32 buf 16 ≠ 0 := fun hmat0 => hm ⟨fun _ => hmat0, fun _ => hm0⟩
    rw [if_neg h0, if_pos hmat]

lemma mab_a_stage_mismatch (buf : Bytes) (size inCh outCh : Nat)
    (ha : ¬ (read_big_u32 buf 28 = 0 ↔ read_big_u32 buf 24 = 0)) :
    mab_a_stage buf size inCh outCh = none := by
  simp only [mab_a_stage]
  by_cases h0 : read_big_u32 buf 28 ≠ 0
  · have hcl : read_big_u32 buf 24 = 0 := by
      by_contra hcl
      exact ha ⟨fun h => absurd h h0, fun h => absurd h hcl⟩
    rw [if_pos h0, if_pos hcl]
  · have ha0 : read_big_u32 buf 28 = 0 := not_not.mp h0
    have hcl : read_big_u32 buf 24 ≠ 0 := fun hcl0 => ha ⟨fun _ => hcl0, fun _ => ha0⟩
    rw [if_neg h0, if_pos hcl]

lemma mab_a_stage_channels (buf : Bytes) (size inCh outCh : Nat)
    (ha : read_big_u32 buf 28 = 0) (hc : read_big_u32 buf 24 = 0) (hio : inCh ≠ outCh) :
    mab_a_stage buf size inCh outCh = none := by
  simp only [mab_a_stage]
  rw [if_neg (not_not_intro ha), if_neg (not_not_intro hc), if_pos hio]

lemma mab_a_stage_elided (buf : Bytes) (size inCh outCh : Nat)
    (ha : read_big_u32 buf 28 = 0) (hc : read_big_u32 buf 24 = 0) :
    ∀ y, mab_a_stage buf size inCh outCh = some y → y.1 = 0 := by
  intro y h
  simp only [mab_a_stage] at h
  rw [if_neg (not_not_intro ha), if_neg (not_not_intro hc)] at h
  by_cases hio : inCh ≠ outCh
  · rw [if_pos hio] at h
    exact Option.noConfusion h
  · rw [if_neg hio] at h
    injection h with h
    subst h
    rfl

lemma read_tag_mab_none_of_b (buf : Bytes) (size : Nat) (hb : read_big_u32 buf 12 = 0) :
    read_tag_mab buf size = none := by
  simp only [read_tag_mab]
  by_cases h1 : size < 32
  · rw [if_pos h1]
  · rw [if_neg h1]
    by_cases hoc : byteAt buf 9 ≠ 3
    · rw [if_pos hoc]
    · rw [if_neg hoc]
      by_cases hic : 4 < byteAt buf 8
      · rw [if_pos hic]
      · rw [if_neg hic]
        rw [if_pos hb]

lemma read_tag_mab_none_of_m (buf : Bytes) (size : Nat)
    (hm : mab_m_stage buf size (byteAt buf 9) = none) : read_tag_mab buf size = none := by
  simp only [read_tag_mab]
  by_cases h1 : size < 32
  · rw [if_pos h1]
  · rw [if_neg h1]
    by_cases hoc : byteAt buf 9 ≠ 3
    · rw [if_pos hoc]
    · rw [if_neg hoc]
      by_cases hic : 4 < byteAt buf 8
      · rw [if_pos hic]
      · rw [if_neg hic]
        by_cases hb : read_big_u32 buf 12 = 0
        · rw [if_pos hb]
        · rw [if_neg hb]
          rcases hbc : read_curves buf size (read_big_u32 buf 12) (byteAt buf 9) with _ | bC
          · rfl
          · rw [hm]

lemma read_tag_mab_none_of_a (buf : Bytes) (size : Nat)
    (hA : mab_a_stage buf size (byteAt buf 8) (byteAt buf 9) = none) :
    read_tag_mab buf size = none := by
  simp only [read_tag_mab]
  by_cases h1 : size < 32
  · rw [if_pos h1]
  · rw [if_neg h1]
    by_cases hoc : byteAt buf 9 ≠ 3
    · rw [if_pos hoc]
    · rw [if_neg hoc]
      by_cases hic : 4 < byteAt buf 8
      · rw [if_pos hic]
      · rw [if_neg hic]
        by_cases hb : read_big_u32 buf 12 = 0
        · rw [if_pos hb]
        · rw [if_neg hb]
          rcases hbc : read_curves buf size (read_big_u32 buf 12) (byteAt buf 9) with _ | bC
          · rfl
          · rcases hms : mab_m_stage buf size (byteAt buf 9) with _ | trip
            · rfl
            · obtain ⟨matCh, mCurves, mtx⟩ := trip
              rw [hA]

lemma read_tag_mab_some_inputs (buf : Bytes) (size : Nat) (a2b : A2B)
    (h2 : read_tag_mab buf size = some a2b) :
    ∃ y, mab_a_stage buf size (byteAt buf 8) (byteAt buf 9) = some y ∧
         a2b.input_channels = y.1 := by
  simp only [read_tag_mab] at h2
  by_cases h1 : size < 32
  · rw [if_pos h1] at h2
    exact Option.noConfusion h2
  · rw [if_neg h1] at h2
    by_cases hoc : byteAt buf 9 ≠ 3
    · rw [if_pos hoc] at h2
      exact Option.noConfusion h2
    · rw [if_neg hoc] at h2
      by_cases hic : 4 < byteAt buf 8
      · rw [if_pos hic] at h2
        exact Option.noConfusion h2
      · rw [if_neg hic] at h2
        by_cases hb : read_big_u32 buf 12 = 0
        · rw [if_pos hb] at h2
          exact Option.noConfusion h2
        · rw [if_neg hb] at h2
          rcases hbc : read_curves buf size (read_big_u32 buf 12) (byteAt buf 9) with _ | bC
          · rw [hbc] at h2
            exact Option.noConfusion h2
          · rw [hbc] at h2
            rcases hms : mab_m_stage buf size (byteAt buf 9) with _ | trip
            · rw [hms] at h2
              exact Option.noConfusion h2
            · rw [hms] at h2
              obtain ⟨matCh, mCurves, mtx⟩ := trip
              rcases has2 : mab_a_stage buf size (byteAt buf 8) (byteAt buf 9) with _ | y
              · rw [has2] at h2
                exact Option.noConfusion h2
              · rw [has2] at h2
                obtain ⟨inCh2, aCurves, gps, g8, g16⟩ := y
                refine ⟨(inCh2, aCurves, gps, g8, g16), rfl, ?_⟩
                injection h2 with h2
                subst h2
                rfl

/-- C6: read_tag_mab fails when the b-curve offset is 0, when exactly one of
the m-curve and matrix offsets is 0, or when exactly one of the a-curve and
clut offsets is 0; when the a-curve and clut offsets are both 0 it requires
the declared input and output channel counts to match, and on success it
records input_channels = 0 to signal the elided stage. -/
theorem C6_mab_rules (buf : Bytes) (size : Nat) :
    (read_big_u32 buf 12 = 0 → read_tag_mab buf size = none) ∧
    (¬ ((read_big_u32 buf 20 = 0) ↔ (read_big_u32 buf 16 = 0)) →
      read_tag_mab buf size = none) ∧
    (¬ ((read_big_u32 buf 28 = 0) ↔ (read_big_u32 buf 24 = 0)) →
      read_tag_mab buf size = none) ∧
    (read_big_u32 buf 28 = 0 → read_big_u32 buf 24 = 0 → byteAt buf 8 ≠ byteAt buf 9 →
      read_tag_mab buf size = none) ∧
    (read_big_u32 buf 28 = 0 → read_big_u32 buf 24 = 0 →
      ∀ a2b, read_tag_mab buf size = some a2b → a2b.input_channels = 0) := by
  refine ⟨fun hb => read_tag_mab_none_of_b buf size hb,
          fun hm => read_tag_mab_none_of_m buf size (mab_m_stage_mismatch buf size _ hm),
          fun ha => read_tag_mab_none_of_a buf size (mab_a_stage_mismatch buf size _ _ ha),
          fun ha hc hio =>
            read_tag_mab_none_of_a buf size (mab_a_stage_channels buf size _ _ ha hc hio),
          fun ha hc a2b h2 => ?_⟩
  obtain ⟨y, hy, he⟩ := read_tag_mab_some_inputs buf size a2b h2
  rw [he]
  exact mab_a_stage_elided buf size _ _ ha hc y hy

/-- Witness for C6: the all-zero 32-byte mAB layout (b-curve offset 0) is
rejected. -/
theorem C6_mab_rules_witness : read_tag_mab mabZeroW 32 = none := by
  exact (C6_mab_rules mabZeroW 32).1 (by decide)

lemma byteAt_le (b : Bytes) (i : Nat) : byteAt b i ≤ 255 := by
  unfold byteAt
  omega

lemma read_big_u16_le (b : Bytes) (i : Nat) : read_big_u16 b i ≤ 65535 := by
  unfold read_big_u16
  have h1 := byteAt_le b i
  have h2 := byteAt_le b (i + 1)
  omega

lemma curve_entry_norm_nonneg (c : Curve) (i : Nat) : 0 ≤ curve_entry_norm c i := by
  unfold curve_entry_norm
  rcases c.table_8 with _ | t8 <;> positivity

lemma curve_entry_norm_le_one (c : Curve) (i : Nat) : curve_entry_norm c i ≤ 1 := by
  unfold curve_entry_norm
  rcases c.table_8 with _ | t8
  · rw [div_le_one (by norm_num)]
    exact_mod_cast read_big_u16_le (c.table_16.getD []) (2 * i)
  · rw [div_le_one (by norm_num)]
    exact_mod_cast byteAt_le t8 i

/-- The counterexample to the claim that lo and hi coincide only at x = 1:
at x = 0 on a two-entry sampled curve, lo = hi = 0 although x is not 1. -/
theorem C5_lo_hi_counterexample :
    curve_lo sampleCurve2 0 = curve_hi sampleCurve2 0 ∧ (0 : ℝ) ≠ 1 := by
  constructor
  · unfold curve_lo curve_hi curve_ix
    norm_num
  · norm_num

/-- C5 (amended): for a sampled curve with N ≥ 2 entries and
ix = clamp(x,0,1) * (N-1), the evaluator uses lo = floor(ix) and
hi = floor(one ulp below ix + 1) = ceil(ix), so lo = hi exactly when ix is
an integer (which includes x = 1 but also every grid point, e.g. x = 0);
eval at 0 is the first normalized entry, eval at 1 the last, and on [0, 1]
eval is the linear interpolation of the normalized entries and stays within
[0, 1] (in particular defined and finite). -/
theorem C5_eval_sampled (c : Curve) (hN : 2 ≤ c.table_entries) :
    skcms_eval_curve c 0 = ((curve_entry_norm c 0 : ℚ) : ℝ) ∧
    skcms_eval_curve c 1 = ((curve_entry_norm c (c.table_entries - 1) : ℚ) : ℝ) ∧
    (∀ x : ℝ, (curve_lo c x = curve_hi c x ↔ ∃ k : ℤ, curve_ix c x = (k : ℝ))) ∧
    (∀ x : ℝ, 0 ≤ x → x ≤ 1 →
      skcms_eval_curve c x =
        ((curve_entry_norm c (curve_lo c x).toNat : ℚ) : ℝ) +
        (((curve_entry_norm c (curve_hi c x).toNat : ℚ) : ℝ) -
          ((curve_entry_norm c (curve_lo c x).toNat : ℚ) : ℝ)) *
          (curve_ix c x - ((curve_lo c x : ℤ) : ℝ)) ∧
      0 ≤ skcms_eval_curve c x ∧ skcms_eval_curve c x ≤ 1) := by
  have hne : ¬ c.table_entries = 0 := by omega
  refine ⟨?_, ?_, ?_, ?_⟩
  · have hix : curve_ix c 0 = 0 := by
      unfold curve_ix
      norm_num
    have hlo : curve_lo c 0 = 0 := by
      unfold curve_lo
      rw [hix]
      exact Int.floor_zero
    have hhi : curve_hi c 0 = 0 := by
      unfold curve_hi
      rw [hix]
      exact Int.ceil_zero
    unfold skcms_eval_curve
    rw [if_neg hne, hix, hlo, hhi]
    norm_num
  · have hix : curve_ix c 1 = ((c.table_entries - 1 : ℕ) : ℝ) := by
      unfold curve_ix
      norm_num
    have hlo : curve_lo c 1 = ((c.table_entries - 1 : ℕ) : ℤ) := by
      unfold curve_lo
      rw [hix]
      exact Int.floor_natCast _
    have hhi : curve_hi c 1 = ((c.table_entries - 1 : ℕ) : ℤ) := by
      unfold curve_hi
      rw [hix]
      exact Int.ceil_natCast _
    unfold skcms_eval_curve
    rw [if_neg hne, hix, hlo, hhi]
    norm_num
  · intro x
    constructor
    · intro h
      refine ⟨curve_lo c x, ?_⟩
      have h1 : ((curve_lo c x : ℤ) : ℝ) ≤ curve_ix c x := Int.floor_le _
      have h2 : curve_ix c x ≤ ((curve_hi c x : ℤ) : ℝ) := Int.le_ceil _
      rw [← h] at h2
      linarith
    · rintro ⟨k, hk⟩
      unfold curve_lo curve_hi
      rw [hk]
      simp
  · intro x hx0 hx1
    have hform : skcms_eval_curve c x =
        ((curve_entry_norm c (curve_lo c x).toNat : ℚ) : ℝ) +
        (((curve_entry_norm c (curve_hi c x).toNat : ℚ) : ℝ) -
          ((curve_entry_norm c (curve_lo c x).toNat : ℚ) : ℝ)) *
          (curve_ix c x - ((curve_lo c x : ℤ) : ℝ)) := by
      unfold skcms_eval_curve
      rw [if_neg hne]
    set l : ℝ := ((curve_entry_norm c (curve_lo c x).toNat : ℚ) : ℝ) with hl
    set h : ℝ := ((curve_entry_norm c (curve_hi c x).toNat : ℚ) : ℝ) with hh
    set t : ℝ := curve_ix c x - ((curve_lo c x : ℤ) : ℝ) with ht
    have hl0 : 0 ≤ l := by
      rw [hl]
      exact_mod_cast curve_entry_norm_nonneg c (curve_lo c x).toNat
    have hl1 : l ≤ 1 := by
      rw [hl]
      exact_mod_cast curve_entry_norm_le_one c (curve_lo c x).toNat
    have hh0 : 0 ≤ h := by
      rw [hh]
      exact_mod_cast curve_entry_norm_nonneg c (curve_hi c x).toNat
    have hh1 : h ≤ 1 := by
      rw [hh]
      exact_mod_cast curve_entry_norm_le_one c (curve_hi c x).toNat
    have ht0 : 0 ≤ t := by
      rw [ht]
      have := Int.floor_le (curve_ix c x)
      unfold curve_lo
      linarith
    have ht1 : t ≤ 1 := by
      rw [ht]
      have := Int.lt_floor_add_one (curve_ix c x)
      unfold curve_lo
      linarith
    have hsum : l + (h - l) * t = l * (1 - t) + h * t := by ring
    refine ⟨hform, ?_, ?_⟩
    · rw [hform, hsum]
      have e1 : 0 ≤ l * (1 - t) := mul_nonneg hl0 (by linarith)
      have e2 : 0 ≤ h * t := mul_nonneg hh0 ht0
      linarith
    · rw [hform, hsum]
      have e1 : l * (1 - t) ≤ 1 * (1 - t) := by
        apply mul_le_mul_of_nonneg_right hl1
        linarith
      have e2 : h * t ≤ 1 * t := mul_le_mul_of_nonneg_right hh1 ht0
      linarith

/-- Witness for C5 at the concrete two-entry sampled curve: eval at 0 equals
the first normalized entry. -/
theorem C5_eval_sampled_witness :
    skcms_eval_curve sampleCurve2 0 = ((curve_entry_norm sampleCurve2 0 : ℚ) : ℝ) :=
  (C5_eval_sampled sampleCurve2 (by decide)).1

/-- Counterexample to C8 as stated: the minimal profile parses with
tag_count = 0, the index 0 = tag_count is accepted by the guard of
skcms_GetTagByIndex, yet the 12 directory bytes of entry 0 do not lie in
the validated (empty) directory range and the instrumented reads leave the
buffer. -/
theorem C8_counterexample :
    skcms_Parse minimalBuf = some profMinimal ∧
    (skcms_GetTagByIndex minimalBuf profMinimal.tag_count 0).isSome = true ∧
    ¬ (132 + 12 * 0 + 12 ≤ 132 + 12 * profMinimal.tag_count) ∧
    getTagByIndex_reads_ok minimalBuf 0 = false := by
  refine ⟨by rfl, by decide, by decide, by decide⟩

/-- C8 (amended): for every successfully parsed profile and every index
strictly below tag_count (the guard of skcms_GetTagByIndex also accepts
i = tag_count, for which the property fails), the 12 directory bytes of
entry i lie within the validated directory range [132, 132 + 12 tag_count),
and every read skcms_GetTagByIndex performs (the directory entry and the 4
payload type bytes) stays within the buffer. -/
theorem C8_get_tag_by_index_reads (buf : Bytes) (P : Profile) (idx : Nat)
    (h : skcms_Parse buf = some P) (hidx : idx < P.tag_count) :
    132 + 12 * idx + 12 ≤ 132 + 12 * P.tag_count ∧
    getTagByIndex_reads_ok buf idx = true ∧
    (skcms_GetTagByIndex buf P.tag_count idx).isSome = true := by
  obtain ⟨hlen, hsig, hsz, htab, hver, hill, hdir, rest⟩ := skcms_Parse_some buf P h
  obtain ⟨e1, e2, -⟩ := skcms_Parse_header buf P h
  have hidx2 : idx < (readHeader buf).tag_count := by omega
  have hm := List.all_eq_true.mp hdir idx (List.mem_range.mpr hidx2)
  obtain ⟨hts, hte⟩ := tag_entry_ok_spec buf _ idx hm
  refine ⟨by omega, ?_, ?_⟩
  · unfold getTagByIndex_reads_ok
    rw [Bool.and_eq_true, decide_eq_true_eq, decide_eq_true_eq]
    constructor
    · omega
    · omega
  · unfold skcms_GetTagByIndex
    rw [if_neg (by omega)]
    rfl

/-- Witness for the amended C8 at the one-tag kTRC profile and index 0. -/
theorem C8_get_tag_by_index_reads_witness :
    getTagByIndex_reads_ok kTRCBuf 0 = true ∧
    (skcms_GetTagByIndex kTRCBuf profKTRC.tag_count 0).isSome = true := by
  obtain ⟨-, h2, h3⟩ := C8_get_tag_by_index_reads kTRCBuf profKTRC 0 (by rfl) (by decide)
  exact ⟨h2, h3⟩

/-- C9 evidence: paraBuf parses successfully, its only tag (handed out by
skcms_GetTagByIndex) has payload type para and size 4 — the minimum the
directory validation admits — and the older parametric reader
skcms_ICCTag_getParametricCurve then reads the two function-type bytes at
payload offset 8, outside the tag's 4 bytes: the instrumented in-bounds
check is false at this input. -/
theorem C9_getParametricCurve_oob :
    (skcms_Parse paraBuf).isSome = true ∧
    skcms_GetTagByIndex paraBuf (read_big_u32 paraBuf 128) 0 = some tagPara ∧
    tagPara.type = sig_para ∧ tagPara.size = 4 ∧
    getParametricCurve_reads_ok tagPara (paraBuf.drop tagPara.offset) = false := by
  refine ⟨by decide, by rfl, by decide, by decide, by decide⟩
